import Mathlib

/-!
Verification of the gosh interactive Go shell (Napolitain/gosh).

This file gives a shallow embedding of the parts of the repository that the
checked properties are about:

* `internal/workspace/workspace.go` — the session `Workspace` (code-block
  list, on-disk session artifact, `AddCodeBlock`, `GetCodeBlocks`, `Clear`,
  `GenerateCobraCLI`, `formatCodeBlocksForCLI`);
* `internal/shell/shell.go` — the interactive loop (`Run`), the buffered
  block reader (`readCodeBlockBuffered`), builtin command dispatch
  (`handleBuiltinCommand`) and `reloadWorkspace`;
* `pkg/shell/shell.go` — the line-oriented block assembler (`readCodeBlock`)
  and its balance heuristic (`isIncompleteBlock`).

Go strings are embedded as `List Char` (`Str`).  The yaegi interpreter is an
opaque oracle: a state type `σ`, an initial state (the state of a freshly
created interpreter after `interp.New`, `Use(stdlib.Symbols)` and the
`import "fmt"` prelude, the identical setup performed by both `shell.New`
and `reloadWorkspace`), and a step function `σ → Str → σ × Bool` returning
the successor interpreter state together with the success flag of the
evaluation (`false` models a non-nil error from `Eval`; the successor state
is threaded in either case, matching the in-place mutation of the Go
interpreter that is not rolled back on failure).  Filesystem writes and
removals are modelled by an outcome parameter `FsOutcome` injected at each
operation, and the on-disk session artifact by an `Option Str` (`none` =
file absent).
-/

namespace Gosh

/-- Go strings, embedded as lists of characters. -/
abbrev Str := List Char

/-! ### Go string primitives used by the sources -/

/-- Whitespace as recognised by `strings.TrimSpace` / `strings.Fields`
(ASCII portion of Unicode White_Space). -/
def isSpaceChar (c : Char) : Bool :=
  c == ' ' || c == '\t' || c == '\n' || c == '\r' || c == '\x0b' || c == '\x0c'

/-- `strings.TrimSpace`. -/
def trimSpace (s : Str) : Str :=
  ((s.dropWhile isSpaceChar).reverse.dropWhile isSpaceChar).reverse

/-- `strings.HasPrefix s p` (here named `startsWith`). -/
def startsWith : Str → Str → Bool
  | _, [] => true
  | [], _ :: _ => false
  | c :: s, p :: ps => c == p && startsWith s ps

/-- `strings.HasSuffix s p` (here named `endsWith`). -/
def endsWith (s p : Str) : Bool :=
  startsWith s.reverse p.reverse

/-- `strings.Count s c` for a single-character pattern `c`. -/
def countRune (s : Str) (c : Char) : Nat :=
  s.countP (· == c)

/-- `strings.Split s "\n"`. -/
def splitOnNL : Str → List Str
  | [] => [[]]
  | c :: rest =>
    if c == '\n' then [] :: splitOnNL rest
    else
      match splitOnNL rest with
      | [] => [[c]]
      | l :: ls => (c :: l) :: ls

/-- `strings.Join lines "\n"`. -/
def joinNL : List Str → Str
  | [] => []
  | [l] => l
  | l :: ls => l ++ '\n' :: joinNL ls

/-- Helper for `fieldsGo`: `cur` is the reversed current word. -/
def fieldsAux : Str → Str → List Str
  | cur, [] => if cur = [] then [] else [cur.reverse]
  | cur, c :: rest =>
    if isSpaceChar c then
      if cur = [] then fieldsAux [] rest else cur.reverse :: fieldsAux [] rest
    else fieldsAux (c :: cur) rest

/-- `strings.Fields`: split around runs of whitespace. -/
def fieldsGo (s : Str) : List Str :=
  fieldsAux [] s

/-- `sub` occurs as a contiguous substring of `s`. -/
def containsSeq (s sub : Str) : Prop :=
  ∃ a c, s = a ++ sub ++ c

/-! ### Workspace (`internal/workspace/workspace.go`) -/

/-- Outcome of one filesystem write/remove, injected into each operation
that touches the disk (`os.WriteFile` in `AddCodeBlock`, `os.Remove` in
`Clear`).  `ioError` models any error such as permission denied or disk
full; for `Clear`, the `os.IsNotExist` case is *not* an error in the Go
code and is therefore part of `ok`. -/
inductive FsOutcome
  | ok
  | ioError
deriving DecidableEq

/-- The `Workspace` struct of `internal/workspace/workspace.go`. -/
structure Workspace where
  rootPath : Str
  internalPath : Str
  sessionID : Str
  codeBlocks : List Str
deriving DecidableEq

/-- A workspace as produced by `workspace.New`: empty block list (the
session file does not exist yet; `New` only creates directories and
`go.mod`). -/
def freshWorkspace (root internal sid : Str) : Workspace :=
  ⟨root, internal, sid, []⟩

/-- The fixed header `AddCodeBlock` writes before the blocks:
`"package internal\n\nimport (\n\t\"fmt\"\n)\n\n"`. -/
def sessionHeader : Str :=
  "package internal\n\nimport (\n\t\"fmt\"\n)\n\n".data

/-- The per-block marker `"// Block\n"`. -/
def blockMarker : Str :=
  "// Block\n".data

/-- The loop body of `AddCodeBlock`'s content construction:
for each block, `content += "// Block\n" + block + "\n\n"`. -/
def renderBody : List Str → Str
  | [] => []
  | b :: bs => blockMarker ++ b ++ "\n\n".data ++ renderBody bs

/-- The full file content `AddCodeBlock` writes to
`internal/session_<ID>.go`: header followed by every block in order. -/
def renderSession (blocks : List Str) : Str :=
  sessionHeader ++ renderBody blocks

/-- `Workspace.AddCodeBlock`: append `code` to the in-memory list, then
rewrite the session file in full from the updated list.  The write outcome
is injected (`wr`); `disk` is the current content of the session artifact.
On a write error the Go function returns the error, leaving the already
extended in-memory list in place (no rollback) and the old disk content
untouched. -/
def addCodeBlock (w : Workspace) (code : Str) (wr : FsOutcome) (disk : Option Str) :
    Workspace × Option Str × Except String Unit :=
  let w' := { w with codeBlocks := w.codeBlocks ++ [code] }
  let content := renderSession w'.codeBlocks
  match wr with
  | .ok => (w', some content, .ok ())
  | .ioError => (w', disk, .error "failed to write session file")

/-- `Workspace.GetCodeBlocks`. -/
def getCodeBlocks (w : Workspace) : List Str :=
  w.codeBlocks

/-- `Workspace.Clear`: empty the in-memory list, then remove the session
file.  The sessionID and paths are untouched.  As in the Go code, the list
is emptied before the removal is attempted. -/
def clearWorkspace (w : Workspace) (rr : FsOutcome) (disk : Option Str) :
    Workspace × Option Str × Except String Unit :=
  let w' := { w with codeBlocks := [] }
  match rr with
  | .ok => (w', none, .ok ())
  | .ioError => (w', disk, .error "failed to remove session file")

/-- Bool projection of a Go-style error result: `true` iff no error. -/
def exOk {α : Type} : Except String α → Bool
  | .ok _ => true
  | .error _ => false

/-! ### Tool emitter (`GenerateCobraCLI`, `formatCodeBlocksForCLI`) -/

/-- `formatCodeBlocksForCLI`: for each block, split on `"\n"` and emit every
non-empty line as `"\t\t" + line + "\n"`. -/
def formatCodeBlocksForCLI (blocks : List Str) : Str :=
  (blocks.map fun block =>
    (((splitOnNL block).filter (· ≠ [])).map fun line =>
      "\t\t".data ++ line ++ "\n".data).flatten).flatten

/-- `GenerateCobraCLI`'s `fmt.Sprintf` template, split at its three `%s`
verbs (substituted with the tool name, the session ID, and the formatted
blocks).  Part 1: up to the first `%s` (inside `Use:   "…"`). -/
def cobraPart1 : Str :=
  "package main\n\nimport (\n\t\"fmt\"\n\t\"os\"\n\n\t\"github.com/spf13/cobra\"\n)\n\nvar rootCmd = &cobra.Command\x7b\n\tUse:   \"".data

/-- Template part 2: between the name and the session ID. -/
def cobraPart2 : Str :=
  "\",\n\tShort: \"Generated CLI from gosh session ".data

/-- Template part 3: between the session ID and the formatted blocks. -/
def cobraPart3 : Str :=
  "\",\n\tRun: func(cmd *cobra.Command, args []string) \x7b\n\t\t// Session code\n".data

/-- Template part 4: after the formatted blocks, containing the fixed
entry-point declaration `func main()`. -/
def cobraPart4 : Str :=
  "\n\t\x7d,\n\x7d\n\nfunc main() \x7b\n\tif err := rootCmd.Execute(); err != nil \x7b\n\t\tfmt.Fprintln(os.Stderr, err)\n\t\tos.Exit(1)\n\t\x7d\n\x7d\n".data

/-- The `main.go` content produced by `GenerateCobraCLI`
(`fmt.Sprintf(template, name, w.sessionID, w.formatCodeBlocksForCLI())`). -/
def cobraMainContent (name sessionID body : Str) : Str :=
  cobraPart1 ++ name ++ cobraPart2 ++ sessionID ++ cobraPart3 ++ body ++ cobraPart4

/-- A filesystem effect performed by `GenerateCobraCLI`. -/
inductive FsOp
  | mkdirAll (path : Str)
  | writeFile (path : Str) (content : Str)
deriving DecidableEq

/-- `Workspace.GenerateCobraCLI`: the only name validation is the emptiness
check; on a non-empty name it creates `<root>/cmd/<name>` and writes
`<root>/cmd/<name>/main.go`.  The returned list records the filesystem
operations performed, in order (empty on the empty-name error, which is
raised before any directory is created). -/
def generateCobraCLI (w : Workspace) (name : Str) :
    List FsOp × Except String Unit :=
  if name = [] then ([], .error "CLI name cannot be empty")
  else
    let cliDir := w.rootPath ++ "/cmd/".data ++ name
    let mainContent :=
      cobraMainContent name w.sessionID (formatCodeBlocksForCLI w.codeBlocks)
    ([.mkdirAll cliDir, .writeFile (cliDir ++ "/main.go".data) mainContent], .ok ())

/-! ### Interpreter oracle and shell loop (`internal/shell/shell.go`) -/

/-- The opaque yaegi interpreter: `init` is the state of a freshly created
interpreter after `interp.New` + `Use(stdlib.Symbols)` + `import "fmt"`
(the identical prelude run by `shell.New` and by `reloadWorkspace`);
`eval st code` returns the successor state and the success flag of
`Eval(code)` (the state advances even on failure — yaegi mutates the
interpreter in place and the shell never rolls it back). -/
structure Interp (σ : Type) where
  init : σ
  eval : σ → Str → σ × Bool

/-- The sublist of `blocks` accepted when evaluated in sequence from state
`st`: the blocks whose evaluation succeeds, with the interpreter state
threaded through every evaluation (successful or not), exactly as the
`Run` loop does. -/
def acceptedBlocks {σ : Type} (I : Interp σ) : σ → List Str → List Str
  | _, [] => []
  | st, b :: bs =>
    let r := I.eval st b
    if r.2 then b :: acceptedBlocks I r.1 bs else acceptedBlocks I r.1 bs

/-- The replay loop of `reloadWorkspace`: evaluate each block in order,
stopping at the first failure with an error. -/
def replayBlocks {σ : Type} (I : Interp σ) : σ → List Str → Except String σ
  | st, [] => .ok st
  | st, b :: bs =>
    let r := I.eval st b
    if r.2 then replayBlocks I r.1 bs else .error "failed to evaluate code block"

/-- The mutable state of the `Shell` struct plus the on-disk session
artifact: interpreter state, `history`, `workspace`, and the session
file content (`none` = absent). -/
structure ShellState (σ : Type) where
  interp : σ
  history : List Str
  ws : Workspace
  disk : Option Str

/-- `Shell.reloadWorkspace`: build a fresh interpreter (state `I.init`,
covering `interp.New`, `Use(stdlib.Symbols)` and the `import "fmt"`
prelude), replay every block of `GetCodeBlocks()` in insertion order, and
install the new interpreter only if every replayed block succeeds.  On
failure, the whole shell state — in particular the workspace and its block
list — is left unchanged. -/
def reloadWorkspace {σ : Type} (I : Interp σ) (s : ShellState σ) :
    ShellState σ × Except String Unit :=
  match replayBlocks I I.init (getCodeBlocks s.ws) with
  | .ok i => ({ s with interp := i }, .ok ())
  | .error e => (s, .error e)

/-- The builtin commands of `handleBuiltinCommand`. -/
inductive Builtin
  | exitCmd
  | helpCmd
  | historyCmd
  | clearCmd
  | workspaceCmd
  | reloadCmd
deriving DecidableEq

/-- `Shell.handleBuiltinCommand`: dispatch on the *first whitespace
separated field* of the input (`strings.Fields(input)[0]`); `none` when the
input is not a builtin (the Go function returns `false`). -/
def handleBuiltinCommand (input : Str) : Option Builtin :=
  match fieldsGo input with
  | [] => none
  | command :: _ =>
    if command = "exit".data ∨ command = "quit".data then some .exitCmd
    else if command = "help".data then some .helpCmd
    else if command = "history".data then some .historyCmd
    else if command = "clear".data then some .clearCmd
    else if command = "workspace".data then some .workspaceCmd
    else if command = "reload".data then some .reloadCmd
    else none

/-- One iteration of the body of `Shell.Run` for a submission `raw`
returned by the block reader (`wr` is the outcome of any filesystem write
this iteration performs): trim; skip empty; dispatch builtins
(`clear` empties history and workspace, `reload` replays, the printing
builtins leave the state unchanged); otherwise append to history, evaluate,
and only on success hand the block to `AddCodeBlock`. -/
def runIteration {σ : Type} (I : Interp σ) (s : ShellState σ) (raw : Str)
    (wr : FsOutcome) : ShellState σ :=
  let codeBlock := trimSpace raw
  if codeBlock = [] then s
  else
    match handleBuiltinCommand codeBlock with
    | some .exitCmd => s
    | some .helpCmd => s
    | some .historyCmd => s
    | some .clearCmd =>
        let r := clearWorkspace s.ws wr s.disk
        { s with history := [], ws := r.1, disk := r.2.1 }
    | some .workspaceCmd => s
    | some .reloadCmd => (reloadWorkspace I s).1
    | none =>
        let s1 := { s with history := s.history ++ [codeBlock] }
        let r := I.eval s1.interp codeBlock
        if r.2 then
          let a := addCodeBlock s1.ws codeBlock wr s1.disk
          { s1 with interp := r.1, ws := a.1, disk := a.2.1 }
        else { s1 with interp := r.1 }

/-- A submission quits the `Run` loop when its trimmed text dispatches to
the exit builtin (`exit` / `quit`: `handleBuiltinCommand` calls
`os.Exit`). -/
def isExitSubmission (raw : Str) : Bool :=
  handleBuiltinCommand (trimSpace raw) = some .exitCmd

/-- The `Run` loop over a list of submissions (each paired with the
filesystem outcome for its iteration), stopping at an exit builtin. -/
def runLoop {σ : Type} (I : Interp σ) : ShellState σ → List (Str × FsOutcome) → ShellState σ
  | s, [] => s
  | s, (raw, wr) :: rest =>
    if isExitSubmission raw then s
    else runLoop I (runIteration I s raw wr) rest

/-- The shell state right after `shell.New` with workspace `w`: fresh
interpreter, empty history, no session file on disk. -/
def initShell {σ : Type} (I : Interp σ) (w : Workspace) : ShellState σ :=
  ⟨I.init, [], w, none⟩

/-! ### Block readers -/

/-- Result of one call to a block reader: shell exit (first line exactly
`exit`/`quit`), a command line returned without balance checking, a
completed block, or exhaustion of the modelled input (the reader is still
waiting for more lines). -/
inductive ReadOutcome
  | exitShell
  | commandLine (line : Str)
  | blockText (text : Str)
  | needMore (lines : List Str)
deriving DecidableEq

/-- `pkg/shell`'s `isIncompleteBlock`: a block is incomplete when open
braces exceed close braces or open parens exceed close parens. -/
def isIncompleteBlock (block : Str) : Bool :=
  let openBraces := countRune block '\x7b'
  let closeBraces := countRune block '\x7d'
  let openParens := countRune block '('
  let closeParens := countRune block ')'
  decide (openBraces > closeBraces) || decide (openParens > closeParens)

/-- `pkg/shell`'s `readCodeBlock`, over a list of already newline-stripped
input lines (`lines` is the accumulated block).  The first line is
special-cased for `exit`/`quit` (exact) and for the `help`/`history`/
`clear`/`workspace` command prefixes; afterwards each line is appended and
the block completes unless a continuation heuristic (blank line, trailing
`\x7b` or `,`, leading `//`) or the balance heuristic asks for more. -/
def readCodeBlockGo : List Str → List Str → ReadOutcome
  | lines, [] => .needMore lines
  | lines, line :: rest =>
    if lines = [] ∧ (line = "exit".data ∨ line = "quit".data) then .exitShell
    else if lines = [] ∧ (startsWith line "help".data ∨ startsWith line "history".data ∨
        startsWith line "clear".data ∨ startsWith line "workspace".data) then
      .commandLine line
    else
      let lines' := lines ++ [line]
      let trimmed := trimSpace line
      if trimmed = [] ∨ endsWith trimmed "\x7b".data ∨ endsWith trimmed ",".data ∨
          startsWith trimmed "//".data then
        readCodeBlockGo lines' rest
      else
        let blockText := joinNL lines'
        if isIncompleteBlock blockText then readCodeBlockGo lines' rest
        else .blockText blockText

/-- The command prefixes checked on the first line by `internal/shell`'s
`readCodeBlockBuffered` (note: `strings.HasPrefix`, not exact equality). -/
def commandPrefixCheck (line : Str) : Bool :=
  startsWith line "help".data || startsWith line "history".data ||
  startsWith line "clear".data || startsWith line "workspace".data ||
  startsWith line "reload".data

/-- `internal/shell`'s `readCodeBlockBuffered`, over a list of already
newline-stripped input lines.  `firstLine` mirrors the Go flag: on the
first line, `exit`/`quit` (exact) end the shell and a command prefix match
returns the line immediately; otherwise an empty line submits the
accumulated block (or restarts with `firstLine = true` when nothing is
accumulated), and any other line is appended. -/
def readCodeBlockBuffered : Bool → List Str → List Str → ReadOutcome
  | _, lines, [] => .needMore lines
  | firstLine, lines, line :: rest =>
    if firstLine ∧ (line = "exit".data ∨ line = "quit".data) then .exitShell
    else if firstLine ∧ commandPrefixCheck line then .commandLine line
    else if trimSpace line = [] then
      if lines ≠ [] then .blockText (joinNL lines)
      else readCodeBlockBuffered true [] rest
    else readCodeBlockBuffered false (lines ++ [line]) rest

/-- The seven reserved builtin command names of the spec. -/
def builtinNames : List Str :=
  ["exit".data, "quit".data, "help".data, "history".data,
   "clear".data, "workspace".data, "reload".data]

/-! ### Concrete fixtures used by counterexamples and witnesses -/

/-- The interpreter state threading the list of evaluated fragments; every
fragment succeeds except the literal `"BAD"`. -/
def testInterp : Interp (List Str) :=
  ⟨[], fun st b => (st ++ [b], !(b == "BAD".data))⟩

/-- A concrete workspace holding the single accepted block `"x := 42"`. -/
def demoWorkspace : Workspace :=
  ⟨"/home/user/.gosh".data, "/home/user/.gosh/internal".data,
   "20250101_120000".data, ["x := 42".data]⟩

/-- The `main.go` content emitted for `demoWorkspace` under the name
`demo`. -/
def demoMain : Str :=
  cobraMainContent "demo".data "20250101_120000".data
    (formatCodeBlocksForCLI ["x := 42".data])

/-- Interpreter states obtained by evaluating a list of fragments in
sequence (successful or not), as the `Run` loop threads them. -/
def evalFold {σ : Type} (I : Interp σ) : σ → List Str → σ
  | st, [] => st
  | st, b :: bs => evalFold I (I.eval st b).1 bs

/-! ### Helper lemmas -/

/-- The accepted blocks form a sublist (order-preserving selection) of the
submitted blocks. -/
lemma acceptedBlocks_sublist {σ : Type} (I : Interp σ) (st : σ) (l : List Str) :
    (acceptedBlocks I st l).Sublist l := by
  induction l generalizing st with
  | nil => simp [acceptedBlocks]
  | cons b bs ih =>
    simp only [acceptedBlocks]
    split
    · exact List.Sublist.cons₂ _ (ih _)
    · exact List.Sublist.cons _ (ih _)

/-- Both write outcomes of `AddCodeBlock` leave the in-memory list extended
by the new block (there is no rollback on write failure). -/
lemma addCodeBlock_fst (w : Workspace) (code : Str) (wr : FsOutcome) (disk : Option Str) :
    (addCodeBlock w code wr disk).1 = { w with codeBlocks := w.codeBlocks ++ [code] } := by
  cases wr <;> rfl

/-- `reloadWorkspace`'s replay succeeds exactly when every block of the
list re-evaluates successfully in order from the fresh state — i.e. when
the accepted sublist is the whole list. -/
lemma replayBlocks_ok_iff {σ : Type} (I : Interp σ) (st : σ) (l : List Str) :
    exOk (replayBlocks I st l) = true ↔ acceptedBlocks I st l = l := by
  induction l generalizing st with
  | nil => simp [replayBlocks, acceptedBlocks, exOk]
  | cons b bs ih =>
    simp only [replayBlocks, acceptedBlocks]
    split
    · rw [ih]
      constructor
      · intro h; rw [h]
      · intro h; exact (List.cons.injEq _ _ _ _ ▸ h).2
    · simp only [exOk, Bool.false_eq_true, false_iff]
      intro h
      have hle := (acceptedBlocks_sublist I ((I.eval st b).1) bs).length_le
      rw [h] at hle
      simp at hle

/-- One `Run` iteration on a non-empty, non-builtin submission: the trimmed
block is appended to history, evaluated, and routed to `AddCodeBlock` only
on success. -/
lemma runIteration_code {σ : Type} (I : Interp σ) (s : ShellState σ) (raw : Str)
    (wr : FsOutcome) (hne : trimSpace raw ≠ [])
    (hnb : handleBuiltinCommand (trimSpace raw) = none) :
    runIteration I s raw wr =
      if (I.eval s.interp (trimSpace raw)).2 then
        { interp := (I.eval s.interp (trimSpace raw)).1,
          history := s.history ++ [trimSpace raw],
          ws := { s.ws with codeBlocks := s.ws.codeBlocks ++ [trimSpace raw] },
          disk := (addCodeBlock s.ws (trimSpace raw) wr s.disk).2.1 }
      else
        { interp := (I.eval s.interp (trimSpace raw)).1,
          history := s.history ++ [trimSpace raw],
          ws := s.ws, disk := s.disk } := by
  simp only [runIteration, hnb, if_neg hne]
  by_cases hb : (I.eval s.interp (trimSpace raw)).2 = true
  · simp [hb, addCodeBlock_fst]
  · simp only [Bool.not_eq_true] at hb
    simp [hb]

/-- A non-builtin submission never exits the loop. -/
lemma isExitSubmission_of_none (raw : Str)
    (hnb : handleBuiltinCommand (trimSpace raw) = none) :
    isExitSubmission raw = false := by
  simp [isExitSubmission, hnb]

/-- The `Run` loop over non-empty, non-builtin submissions: history gains
every trimmed submission, the workspace gains exactly the accepted ones in
order, and the interpreter state threads through all evaluations. -/
lemma runLoop_code {σ : Type} (I : Interp σ) (ins : List (Str × FsOutcome)) :
    ∀ s : ShellState σ,
      (∀ p ∈ ins, trimSpace p.1 ≠ [] ∧ handleBuiltinCommand (trimSpace p.1) = none) →
      (runLoop I s ins).ws.codeBlocks
          = s.ws.codeBlocks ++ acceptedBlocks I s.interp (ins.map fun p => trimSpace p.1) ∧
      (runLoop I s ins).history = s.history ++ ins.map (fun p => trimSpace p.1) ∧
      (runLoop I s ins).interp = evalFold I s.interp (ins.map fun p => trimSpace p.1) := by
  induction ins with
  | nil => intro s _; simp [runLoop, acceptedBlocks, evalFold]
  | cons p rest ih =>
    obtain ⟨raw, wr⟩ := p
    intro s h
    obtain ⟨hne, hnb⟩ := h (raw, wr) (List.mem_cons_self _ _)
    have hrest := fun q hq => h q (List.mem_cons_of_mem _ hq)
    simp only [runLoop, isExitSubmission_of_none raw hnb, Bool.false_eq_true, if_false]
    rw [runIteration_code I s raw wr hne hnb]
    by_cases hb : (I.eval s.interp (trimSpace raw)).2 = true
    · rw [if_pos hb]
      obtain ⟨h1, h2, h3⟩ := ih _ hrest
      refine ⟨?_, ?_, ?_⟩
      · rw [h1]; simp [acceptedBlocks, hb, List.append_assoc]
      · rw [h2]; simp [List.append_assoc]
      · rw [h3]; simp [evalFold]
    · simp only [Bool.not_eq_true] at hb
      rw [if_neg (by simp [hb])]
      obtain ⟨h1, h2, h3⟩ := ih _ hrest
      refine ⟨?_, ?_, ?_⟩
      · rw [h1]; simp [acceptedBlocks, hb]
      · rw [h2]; simp [List.append_assoc]
      · rw [h3]; simp [evalFold]

/-- The on-disk artifact after a `Run` loop over non-empty, non-builtin
submissions whose writes all succeed: untouched when nothing was accepted,
otherwise a full rewrite rendered from the final block list. -/
lemma runLoop_disk {σ : Type} (I : Interp σ) (ins : List (Str × FsOutcome)) :
    ∀ s : ShellState σ,
      (∀ p ∈ ins, trimSpace p.1 ≠ [] ∧ handleBuiltinCommand (trimSpace p.1) = none ∧
        p.2 = FsOutcome.ok) →
      (runLoop I s ins).disk
        = if acceptedBlocks I s.interp (ins.map fun p => trimSpace p.1) = [] then s.disk
          else some (renderSession
            (s.ws.codeBlocks ++ acceptedBlocks I s.interp (ins.map fun p => trimSpace p.1))) := by
  induction ins with
  | nil => intro s _; simp [runLoop, acceptedBlocks]
  | cons p rest ih =>
    obtain ⟨raw, wr⟩ := p
    intro s h
    obtain ⟨hne, hnb, hok⟩ := h (raw, wr) (List.mem_cons_self _ _)
    have hrest := fun q hq => h q (List.mem_cons_of_mem _ hq)
    simp only at hok
    subst hok
    simp only [runLoop, isExitSubmission_of_none raw hnb, Bool.false_eq_true, if_false]
    rw [runIteration_code I s raw FsOutcome.ok hne hnb]
    by_cases hb : (I.eval s.interp (trimSpace raw)).2 = true
    · rw [if_pos hb]
      rw [ih _ hrest]
      simp only [acceptedBlocks, hb, if_true]
      by_cases hacc : acceptedBlocks I (I.eval s.interp (trimSpace raw)).1
          (rest.map fun p => trimSpace p.1) = []
      · simp [hacc, addCodeBlock]
      · simp [hacc, List.append_assoc]
    · simp only [Bool.not_eq_true] at hb
      rw [if_neg (by simp [hb])]
      rw [ih _ hrest]
      simp [acceptedBlocks, hb]

/-- Every block of the list occurs verbatim in the rendered session
artifact. -/
lemma containsSeq_renderSession {b : Str} :
    ∀ {blocks : List Str}, b ∈ blocks → containsSeq (renderSession blocks) b := by
  intro blocks hb
  suffices h : ∃ a c, renderBody blocks = a ++ b ++ c by
    obtain ⟨a, c, h⟩ := h
    exact ⟨sessionHeader ++ a, c, by simp [renderSession, h, List.append_assoc]⟩
  induction blocks with
  | nil => cases hb
  | cons x xs ih =>
    rcases List.mem_cons.mp hb with hx | hxs
    · subst hx
      exact ⟨blockMarker, "\n\n".data ++ renderBody xs, by simp [renderBody, List.append_assoc]⟩
    · obtain ⟨a, c, h⟩ := ih hxs
      exact ⟨blockMarker ++ x ++ "\n\n".data ++ a, c, by simp [renderBody, h, List.append_assoc]⟩

/-- From a state with a non-empty accumulated block and `firstLine` off,
`readCodeBlockBuffered` can only submit the block or run out of input:
it never returns a command line or exits. -/
lemma readCodeBlockBuffered_no_dispatch :
    ∀ (input lines : List Str), lines ≠ [] →
      (∀ l, readCodeBlockBuffered false lines input ≠ .commandLine l) ∧
      readCodeBlockBuffered false lines input ≠ .exitShell := by
  intro input
  induction input with
  | nil => intro lines _; simp [readCodeBlockBuffered]
  | cons line rest ih =>
    intro lines h
    simp only [readCodeBlockBuffered, Bool.false_eq_true, false_and, if_false]
    by_cases ht : trimSpace line = []
    · simp [ht, h]
    · simp only [ht, if_neg]
      exact ih (lines ++ [line]) (by simp)

/-! ### Claim theorems -/

/-- C1: a code block is persisted to the session workspace — present in
the in-memory block list and in the on-disk session artifact — if and only
if its evaluation against the interpreter's current state succeeded.  Over
any `Run` trace of non-empty non-builtin submissions whose writes succeed,
the final block list is exactly the accepted sublist (so a block whose
evaluation fails at its turn is never added by any step of the loop), and
the artifact is the render of exactly that list (absent while nothing has
been accepted). -/
theorem persisted_iff_evaluation_succeeds {σ : Type} (I : Interp σ)
    (root internal sid : Str) (ins : List (Str × FsOutcome))
    (h : ∀ p ∈ ins, trimSpace p.1 ≠ [] ∧ handleBuiltinCommand (trimSpace p.1) = none ∧
      p.2 = FsOutcome.ok) :
    getCodeBlocks (runLoop I (initShell I (freshWorkspace root internal sid)) ins).ws
        = acceptedBlocks I I.init (ins.map fun p => trimSpace p.1) ∧
    (runLoop I (initShell I (freshWorkspace root internal sid)) ins).disk
        = if acceptedBlocks I I.init (ins.map fun p => trimSpace p.1) = [] then none
          else some (renderSession (acceptedBlocks I I.init (ins.map fun p => trimSpace p.1))) := by
  have h1 := (runLoop_code I ins (initShell I (freshWorkspace root internal sid))
    (fun p hp => ⟨(h p hp).1, (h p hp).2.1⟩)).1
  have h2 := runLoop_disk I ins (initShell I (freshWorkspace root internal sid)) h
  simp only [initShell, freshWorkspace, getCodeBlocks, List.nil_append] at h1 h2 ⊢
  exact ⟨h1, h2⟩

/-- C1 witness: a two-submission trace where `x := 42` evaluates and `BAD`
fails; the workspace retains exactly the accepted block and the artifact
renders it. -/
theorem persisted_iff_evaluation_succeeds_witness :
    (∀ p ∈ [("x := 42".data, FsOutcome.ok), ("BAD".data, FsOutcome.ok)],
        trimSpace p.1 ≠ [] ∧ handleBuiltinCommand (trimSpace p.1) = none ∧
        p.2 = FsOutcome.ok) ∧
    (getCodeBlocks (runLoop testInterp (initShell testInterp
          (freshWorkspace "r".data "ri".data "20250101_000000".data))
          [("x := 42".data, FsOutcome.ok), ("BAD".data, FsOutcome.ok)]).ws
        = acceptedBlocks testInterp testInterp.init
            ([("x := 42".data, FsOutcome.ok), ("BAD".data, FsOutcome.ok)].map
              fun p => trimSpace p.1) ∧
     (runLoop testInterp (initShell testInterp
          (freshWorkspace "r".data "ri".data "20250101_000000".data))
          [("x := 42".data, FsOutcome.ok), ("BAD".data, FsOutcome.ok)]).disk
        = if acceptedBlocks testInterp testInterp.init
              ([("x := 42".data, FsOutcome.ok), ("BAD".data, FsOutcome.ok)].map
                fun p => trimSpace p.1) = [] then none
          else some (renderSession (acceptedBlocks testInterp testInterp.init
              ([("x := 42".data, FsOutcome.ok), ("BAD".data, FsOutcome.ok)].map
                fun p => trimSpace p.1)))) :=
  ⟨by decide, persisted_iff_evaluation_succeeds testInterp "r".data "ri".data
    "20250101_000000".data _ (by decide)⟩

/-- C2 counterexample: `AddCodeBlock` is not transactional.  On a write
failure of the new block from an empty workspace, the returned error is
accompanied by an in-memory list that has advanced to `["x := 42"]` while
the on-disk artifact is still absent — the in-memory list is not rolled
back, so it is false that "either both advance or neither does". -/
theorem append_not_transactional_counterexample :
    exOk (addCodeBlock (freshWorkspace "r".data "ri".data "s".data)
        "x := 42".data FsOutcome.ioError none).2.2 = false ∧
    (addCodeBlock (freshWorkspace "r".data "ri".data "s".data)
        "x := 42".data FsOutcome.ioError none).1.codeBlocks = ["x := 42".data] ∧
    (addCodeBlock (freshWorkspace "r".data "ri".data "s".data)
        "x := 42".data FsOutcome.ioError none).2.1 = none := by decide

/-- C2 amended: when writing the updated session artifact fails,
`AddCodeBlock` surfaces the error but performs no rollback: the in-memory
list still advances by the new block while the on-disk artifact is left at
its previous state (in-memory and on-disk state diverge). -/
theorem append_write_failure_no_rollback (w : Workspace) (code : Str)
    (disk : Option Str) :
    (addCodeBlock w code FsOutcome.ioError disk).1.codeBlocks
        = w.codeBlocks ++ [code] ∧
    (addCodeBlock w code FsOutcome.ioError disk).2.1 = disk ∧
    exOk (addCodeBlock w code FsOutcome.ioError disk).2.2 = false := by
  simp [addCodeBlock, exOk]

/-- C3: `reloadWorkspace` replays every persisted block in insertion order
against a fresh interpreter (it succeeds exactly when every block of
`GetCodeBlocks()` re-evaluates successfully in sequence from the fresh
state), and — on success as much as on failure — leaves the workspace, its
block list, the history and the on-disk artifact unchanged. -/
theorem reload_replays_and_preserves_blocks {σ : Type} (I : Interp σ)
    (s : ShellState σ) :
    (reloadWorkspace I s).1.ws = s.ws ∧
    (reloadWorkspace I s).1.history = s.history ∧
    (reloadWorkspace I s).1.disk = s.disk ∧
    (exOk (reloadWorkspace I s).2 = true ↔
      acceptedBlocks I I.init (getCodeBlocks s.ws) = getCodeBlocks s.ws) := by
  rcases hrep : replayBlocks I I.init (getCodeBlocks s.ws) with e | i
  · simp only [reloadWorkspace, hrep]
    refine ⟨trivial, trivial, trivial, ?_⟩
    simp only [exOk, Bool.false_eq_true, false_iff]
    intro hacc
    have hok := (replayBlocks_ok_iff I I.init (getCodeBlocks s.ws)).mpr hacc
    rw [hrep] at hok
    simp [exOk] at hok
  · simp only [reloadWorkspace, hrep]
    refine ⟨trivial, trivial, trivial, ?_⟩
    have hok := (replayBlocks_ok_iff I I.init (getCodeBlocks s.ws)).mp
      (by rw [hrep]; rfl)
    simp [exOk, hok]

/-- C4: over any `Run` trace of non-empty non-builtin submissions whose
writes succeed, `GetCodeBlocks` returns exactly the accepted blocks in
submission order (an order-preserving sublist of the submissions); after
the last append the artifact is the full rewrite rendered from exactly
that list, each accepted block occurring verbatim in it, and no rejected
block is in the list the artifact is rendered from. -/
theorem blocks_in_submission_order_full_rewrite {σ : Type} (I : Interp σ)
    (root internal sid : Str) (ins : List (Str × FsOutcome))
    (h : ∀ p ∈ ins, trimSpace p.1 ≠ [] ∧ handleBuiltinCommand (trimSpace p.1) = none ∧
      p.2 = FsOutcome.ok) :
    getCodeBlocks (runLoop I (initShell I (freshWorkspace root internal sid)) ins).ws
        = acceptedBlocks I I.init (ins.map fun p => trimSpace p.1) ∧
    (acceptedBlocks I I.init (ins.map fun p => trimSpace p.1)).Sublist
        (ins.map fun p => trimSpace p.1) ∧
    (runLoop I (initShell I (freshWorkspace root internal sid)) ins).disk
        = (if acceptedBlocks I I.init (ins.map fun p => trimSpace p.1) = [] then none
           else some (renderSession
             (acceptedBlocks I I.init (ins.map fun p => trimSpace p.1)))) ∧
    ∀ b ∈ acceptedBlocks I I.init (ins.map fun p => trimSpace p.1),
      containsSeq (renderSession (acceptedBlocks I I.init (ins.map fun p => trimSpace p.1))) b := by
  have h1 := (runLoop_code I ins (initShell I (freshWorkspace root internal sid))
    (fun p hp => ⟨(h p hp).1, (h p hp).2.1⟩)).1
  have h2 := runLoop_disk I ins (initShell I (freshWorkspace root internal sid)) h
  simp only [initShell, freshWorkspace, getCodeBlocks, List.nil_append] at h1 h2 ⊢
  exact ⟨h1, acceptedBlocks_sublist I I.init _, h2,
    fun b hb => containsSeq_renderSession hb⟩

/-- C4 witness: three submissions of which the middle one fails; the
workspace holds the two accepted blocks in order and the artifact contains
them. -/
theorem blocks_in_submission_order_full_rewrite_witness :
    (∀ p ∈ [("a := 1".data, FsOutcome.ok), ("BAD".data, FsOutcome.ok),
        ("b := 2".data, FsOutcome.ok)],
        trimSpace p.1 ≠ [] ∧ handleBuiltinCommand (trimSpace p.1) = none ∧
        p.2 = FsOutcome.ok) ∧
    (getCodeBlocks (runLoop testInterp (initShell testInterp
          (freshWorkspace "r".data "ri".data "20250101_000000".data))
          [("a := 1".data, FsOutcome.ok), ("BAD".data, FsOutcome.ok),
           ("b := 2".data, FsOutcome.ok)]).ws
        = acceptedBlocks testInterp testInterp.init
            ([("a := 1".data, FsOutcome.ok), ("BAD".data, FsOutcome.ok),
              ("b := 2".data, FsOutcome.ok)].map fun p => trimSpace p.1) ∧
     (acceptedBlocks testInterp testInterp.init
          ([("a := 1".data, FsOutcome.ok), ("BAD".data, FsOutcome.ok),
            ("b := 2".data, FsOutcome.ok)].map fun p => trimSpace p.1)).Sublist
        ([("a := 1".data, FsOutcome.ok), ("BAD".data, FsOutcome.ok),
          ("b := 2".data, FsOutcome.ok)].map fun p => trimSpace p.1) ∧
     (runLoop testInterp (initShell testInterp
          (freshWorkspace "r".data "ri".data "20250101_000000".data))
          [("a := 1".data, FsOutcome.ok), ("BAD".data, FsOutcome.ok),
           ("b := 2".data, FsOutcome.ok)]).disk
        = (if acceptedBlocks testInterp testInterp.init
              ([("a := 1".data, FsOutcome.ok), ("BAD".data, FsOutcome.ok),
                ("b := 2".data, FsOutcome.ok)].map fun p => trimSpace p.1) = [] then none
           else some (renderSession (acceptedBlocks testInterp testInterp.init
              ([("a := 1".data, FsOutcome.ok), ("BAD".data, FsOutcome.ok),
                ("b := 2".data, FsOutcome.ok)].map fun p => trimSpace p.1)))) ∧
     ∀ b ∈ acceptedBlocks testInterp testInterp.init
          ([("a := 1".data, FsOutcome.ok), ("BAD".data, FsOutcome.ok),
            ("b := 2".data, FsOutcome.ok)].map fun p => trimSpace p.1),
        containsSeq (renderSession (acceptedBlocks testInterp testInterp.init
            ([("a := 1".data, FsOutcome.ok), ("BAD".data, FsOutcome.ok),
              ("b := 2".data, FsOutcome.ok)].map fun p => trimSpace p.1))) b) :=
  ⟨by decide, blocks_in_submission_order_full_rewrite testInterp "r".data "ri".data
    "20250101_000000".data _ (by decide)⟩

/-- C5: the balance heuristic declares a block incomplete exactly when
open braces exceed close braces or open parens exceed close parens; the
two-line input `if true \x7b` then `\x7d` is assembled by the reader into
one two-line block only once the second line restores balance, while the
single balanced line `a()` completes immediately. -/
theorem balance_heuristic_and_examples :
    (∀ b : Str, isIncompleteBlock b = true ↔
      (countRune b '\x7b' > countRune b '\x7d' ∨ countRune b '(' > countRune b ')')) ∧
    readCodeBlockGo [] ["if true \x7b".data] = .needMore ["if true \x7b".data] ∧
    readCodeBlockGo [] ["if true \x7b".data, "\x7d".data]
        = .blockText "if true \x7b\n\x7d".data ∧
    readCodeBlockGo [] ["a()".data] = .blockText "a()".data := by
  refine ⟨?_, by decide, by decide, by decide⟩
  intro b
  simp [isIncompleteBlock]

/-- C6 counterexample: the first line `help me` is not an exact match of
any of the seven reserved command names, yet the reader returns it
immediately as a command line (it never enters block assembly or balance
checking) and `handleBuiltinCommand` dispatches it to the help builtin by
its first field — refuting the claimed exact-match iff. -/
theorem builtin_dispatch_not_exact_counterexample :
    readCodeBlockBuffered true [] ["help me".data] = .commandLine "help me".data ∧
    handleBuiltinCommand "help me".data = some Builtin.helpCmd ∧
    "help me".data ∉ builtinNames := by decide

/-- C6 amended: a non-blank first line of a fresh block ends the shell iff
it is exactly `exit` or `quit`, and is returned immediately as a command
line — bypassing balance checking — iff it is not `exit`/`quit` and merely
*begins with* one of `help`, `history`, `clear`, `workspace`, `reload`
(a string-prefix match, not an exact match; whether it is then executed as
a builtin depends on its first whitespace-separated field). -/
theorem first_line_dispatch (line : Str) (rest : List Str)
    (hline : trimSpace line ≠ []) :
    (readCodeBlockBuffered true [] (line :: rest) = .exitShell ↔
      (line = "exit".data ∨ line = "quit".data)) ∧
    (readCodeBlockBuffered true [] (line :: rest) = .commandLine line ↔
      (¬(line = "exit".data ∨ line = "quit".data) ∧ commandPrefixCheck line = true)) := by
  by_cases h1 : line = "exit".data ∨ line = "quit".data
  · simp [readCodeBlockBuffered, h1]
  · by_cases h2 : commandPrefixCheck line = true
    · simp [readCodeBlockBuffered, h1, h2]
    · have hnd := readCodeBlockBuffered_no_dispatch rest [line] (by simp)
      have hred : readCodeBlockBuffered true [] (line :: rest)
          = readCodeBlockBuffered false [line] rest := by
        simp [readCodeBlockBuffered, h1, h2, hline]
      rw [hred]
      constructor
      · constructor
        · intro hcon; exact absurd hcon hnd.2
        · intro hcon; exact absurd hcon h1
      · constructor
        · intro hcon; exact absurd hcon (hnd.1 line)
        · intro hcon; exact absurd hcon.2 h2

/-- C6 amended witness at the non-blank first line `history`. -/
theorem first_line_dispatch_witness :
    trimSpace "history".data ≠ [] ∧
    ((readCodeBlockBuffered true [] ["history".data] = .exitShell ↔
      ("history".data = "exit".data ∨ "history".data = "quit".data)) ∧
     (readCodeBlockBuffered true [] ["history".data] = .commandLine "history".data ↔
      (¬("history".data = "exit".data ∨ "history".data = "quit".data) ∧
       commandPrefixCheck "history".data = true))) :=
  ⟨by decide, first_line_dispatch "history".data [] (by decide)⟩

set_option maxRecDepth 10000 in
/-- C7: for the block list `["x := 42"]`, `GenerateCobraCLI "demo"` creates
`<root>/cmd/demo` and writes `<root>/cmd/demo/main.go` whose content
contains both the literal `x := 42` and the fixed entry-point declaration
`func main()`. -/
theorem emit_demo_produces_main :
    (generateCobraCLI demoWorkspace "demo".data).1
        = [FsOp.mkdirAll "/home/user/.gosh/cmd/demo".data,
           FsOp.writeFile "/home/user/.gosh/cmd/demo/main.go".data demoMain] ∧
    exOk (generateCobraCLI demoWorkspace "demo".data).2 = true ∧
    containsSeq demoMain "x := 42".data ∧
    containsSeq demoMain "func main()".data := by
  refine ⟨by decide, by decide, ?_, ?_⟩
  · exact ⟨cobraPart1 ++ "demo".data ++ cobraPart2 ++ "20250101_120000".data ++
      cobraPart3 ++ "\t\t".data, "\n".data ++ cobraPart4, by decide⟩
  · exact ⟨cobraPart1 ++ "demo".data ++ cobraPart2 ++ "20250101_120000".data ++
      cobraPart3 ++ "\t\tx := 42\n".data ++ "\n\t\x7d,\n\x7d\n\n".data,
      " \x7b\n\tif err := rootCmd.Execute(); err != nil \x7b\n\t\tfmt.Fprintln(os.Stderr, err)\n\t\tos.Exit(1)\n\t\x7d\n\x7d\n".data,
      by decide⟩

/-- C8 counterexample: `GenerateCobraCLI` accepts the name `a/b`, which
contains the path separator and is therefore not a valid single path
segment — the only name validation in the code is the emptiness check, so
the claimed failure on invalid identifiers/path segments does not hold. -/
theorem emit_accepts_invalid_segment_counterexample :
    exOk (generateCobraCLI demoWorkspace "a/b".data).2 = true ∧
    '/' ∈ "a/b".data := by decide

/-- C8 amended: `GenerateCobraCLI` fails iff the name is empty (emptiness
is the only name validation), and the empty-name failure is raised before
any filesystem operation, so no directory is created. -/
theorem emit_fails_iff_empty_name (w : Workspace) (name : Str) :
    (exOk (generateCobraCLI w name).2 = false ↔ name = []) ∧
    ((generateCobraCLI w name).1 = [] ↔ name = []) := by
  by_cases h : name = [] <;> simp [generateCobraCLI, exOk, h]

/-- C9: after a successful `Clear`, `GetCodeBlocks` returns the empty list
and the on-disk artifact is absent, while the session ID and both
workspace paths are unchanged. -/
theorem clear_empties_blocks_preserves_identity (w : Workspace) (disk : Option Str) :
    getCodeBlocks (clearWorkspace w FsOutcome.ok disk).1 = [] ∧
    (clearWorkspace w FsOutcome.ok disk).2.1 = none ∧
    exOk (clearWorkspace w FsOutcome.ok disk).2.2 = true ∧
    (clearWorkspace w FsOutcome.ok disk).1.sessionID = w.sessionID ∧
    (clearWorkspace w FsOutcome.ok disk).1.rootPath = w.rootPath ∧
    (clearWorkspace w FsOutcome.ok disk).1.internalPath = w.internalPath := by
  simp [clearWorkspace, getCodeBlocks, exOk]

/-- C10: over any `Run` trace of non-empty non-builtin submissions (with
arbitrary filesystem outcomes), every submitted block is appended to the
history — including the ones whose evaluation fails — while the workspace
receives only the accepted ones, so the workspace block list is an
order-preserving sublist of the history. -/
theorem history_supersequence_of_workspace {σ : Type} (I : Interp σ)
    (root internal sid : Str) (ins : List (Str × FsOutcome))
    (h : ∀ p ∈ ins, trimSpace p.1 ≠ [] ∧ handleBuiltinCommand (trimSpace p.1) = none) :
    (runLoop I (initShell I (freshWorkspace root internal sid)) ins).history
        = ins.map (fun p => trimSpace p.1) ∧
    getCodeBlocks (runLoop I (initShell I (freshWorkspace root internal sid)) ins).ws
        = acceptedBlocks I I.init (ins.map fun p => trimSpace p.1) ∧
    (getCodeBlocks (runLoop I (initShell I (freshWorkspace root internal sid)) ins).ws).Sublist
        ((runLoop I (initShell I (freshWorkspace root internal sid)) ins).history) := by
  obtain ⟨h1, h2, _⟩ := runLoop_code I ins (initShell I (freshWorkspace root internal sid)) h
  simp only [initShell, freshWorkspace, getCodeBlocks, List.nil_append] at h1 h2 ⊢
  exact ⟨h2, h1, by rw [h1, h2]; exact acceptedBlocks_sublist I I.init _⟩

/-- C10 witness: a trace whose second submission fails evaluation (and
whose write outcome differs): the history keeps both blocks, the workspace
only the accepted one. -/
theorem history_supersequence_of_workspace_witness :
    (∀ p ∈ [("fmt.Println(1)".data, FsOutcome.ok), ("BAD".data, FsOutcome.ioError)],
        trimSpace p.1 ≠ [] ∧ handleBuiltinCommand (trimSpace p.1) = none) ∧
    ((runLoop testInterp (initShell testInterp
          (freshWorkspace "r".data "ri".data "20250101_000000".data))
          [("fmt.Println(1)".data, FsOutcome.ok), ("BAD".data, FsOutcome.ioError)]).history
        = [("fmt.Println(1)".data, FsOutcome.ok), ("BAD".data, FsOutcome.ioError)].map
            (fun p => trimSpace p.1) ∧
     getCodeBlocks (runLoop testInterp (initShell testInterp
          (freshWorkspace "r".data "ri".data "20250101_000000".data))
          [("fmt.Println(1)".data, FsOutcome.ok), ("BAD".data, FsOutcome.ioError)]).ws
        = acceptedBlocks testInterp testInterp.init
            ([("fmt.Println(1)".data, FsOutcome.ok), ("BAD".data, FsOutcome.ioError)].map
              fun p => trimSpace p.1) ∧
     (getCodeBlocks (runLoop testInterp (initShell testInterp
          (freshWorkspace "r".data "ri".data "20250101_000000".data))
          [("fmt.Println(1)".data, FsOutcome.ok), ("BAD".data, FsOutcome.ioError)]).ws).Sublist
        ((runLoop testInterp (initShell testInterp
          (freshWorkspace "r".data "ri".data "20250101_000000".data))
          [("fmt.Println(1)".data, FsOutcome.ok), ("BAD".data, FsOutcome.ioError)]).history)) :=
  ⟨by decide, history_supersequence_of_workspace testInterp "r".data "ri".data
    "20250101_000000".data _ (by decide)⟩

end Gosh
